import Mathlib

/-!
Shallow embedding of the stateful orchestration layer of
`src/core/_sklearn.py` (class `SKLearnForQlik`): the model cache, the
parameter decoding in `_set_params`, the contract handling in `fit`,
`get_features` and `predict`, and the closed algorithm registry.

Python exceptions are embedded as an explicit error type and fallible
operations return `Except`.  Dynamic object attributes that a code path may
read before any assignment are embedded as `Option` fields, with `none`
meaning "attribute never assigned"; reading such a field through `attr`
yields the AttributeError that Python would raise.  External collaborators
(the sklearn estimators, pandas frame internals, joblib persistence, the
gRPC transport and the log files) are abstracted: the estimator behaviour
behind a fitted pipeline is a record of opaque outputs, persistence is a
name-indexed map, and logging is dropped since it returns no value.
-/

/-- The kinds of runtime failure the embedded code paths can produce,
mirroring the Python exceptions actually raised by the source:
attribute access on a never-assigned attribute, dictionary lookup with an
unknown key (the error value carries the key, as a Python KeyError does),
positional indexing into an empty selection, malformed parameter tokens,
and a model name absent from the persistent store. -/
inductive PyErr where
  | attributeError (attrName : String)
  | keyError (key : String)
  | indexError
  | parseError (token : String)
  | notFoundError (modelName : String)
deriving DecidableEq

/-- Lower-casing of one ASCII character, used to embed the lower() calls of
the source on keyword values. -/
def lowerChar (c : Char) : Char :=
  if 65 ≤ c.toNat ∧ c.toNat ≤ 90 then Char.ofNat (c.toNat + 32) else c

/-- Lower-casing of a string, character by character. -/
def strToLower (s : String) : String := ⟨s.data.map lowerChar⟩

/-- Whitespace test for trimming parameter tokens. -/
def isSpaceChar (c : Char) : Bool :=
  c == ' ' || c == '\t' || c == '\n' || c == '\r'

/-- Removes leading and trailing whitespace from a character list. -/
def trimChars (l : List Char) : List Char :=
  ((l.dropWhile isSpaceChar).reverse.dropWhile isSpaceChar).reverse

/-- Removes leading and trailing whitespace from a string. -/
def trimStr (s : String) : String := ⟨trimChars s.data⟩

/-- Splits a character list at every occurrence of the separator, keeping
empty pieces, as the Python split method does. -/
def splitCharAux (c : Char) : List Char → List (List Char)
  | [] => [[]]
  | x :: xs =>
    let r := splitCharAux c xs
    if x = c then [] :: r
    else
      match r with
      | [] => [[x]]
      | t :: ts => (x :: t) :: ts

/-- Splits a string at every occurrence of the separator character. -/
def splitStr (s : String) (c : Char) : List String :=
  (splitCharAux c s.data).map (fun l => ⟨l⟩)

/-- Numeric value of a decimal digit character. -/
def digitVal (c : Char) : Nat := c.toNat - 48

/-- Decimal digit test. -/
def isDigitChar (c : Char) : Bool := 48 ≤ c.toNat && c.toNat ≤ 57

/-- Reads a non-empty all-digit character list as a natural number. -/
def digitsToNat (l : List Char) : Nat :=
  l.foldl (fun a c => a * 10 + digitVal c) 0

/-- Parses a plain digit run, refusing empty or non-digit input. -/
def parseNatOpt (l : List Char) : Option Nat :=
  if !l.isEmpty && l.all isDigitChar then some (digitsToNat l) else none

/-- Parses an optionally signed integer literal. -/
def parseIntOpt (s : String) : Option Int :=
  match s.data with
  | '-' :: rest => (parseNatOpt rest).map (fun n => -(n : Int))
  | '+' :: rest => (parseNatOpt rest).map (fun n => (n : Int))
  | l => (parseNatOpt l).map (fun n => (n : Int))

/-- Parses an optionally signed decimal literal with an optional fractional
part, as an exact rational. -/
def parseRatOpt (s : String) : Option ℚ :=
  let core : List Char → Option ℚ := fun l =>
    match splitCharAux '.' l with
    | [ip] => (parseNatOpt ip).map (fun n => (n : ℚ))
    | [ip, fp] =>
      match parseNatOpt ip, parseNatOpt fp with
      | some n, some f => some ((n : ℚ) + (f : ℚ) / ((10 : ℚ) ^ fp.length))
      | _, _ => none
    | _ => none
  match s.data with
  | '-' :: rest => (core rest).map (fun q => -q)
  | '+' :: rest => core rest
  | l => core l

/-- Modelled from the spec: the locale-based float parse used by
`_set_params` for `test_size` (the locale library is outside src/).  The
claims settled here never depend on its value, only on whether the keyword
was supplied at all, so malformed numerals are simplified to 0 rather than
modelling the ValueError path. -/
def atof (s : String) : ℚ := (parseRatOpt (trimStr s)).getD 0

/-- Modelled from the spec: the locale-based integer parse used by
`_set_params` for `random_state` and `compress`; same simplification as
`atof`. -/
def atoi (s : String) : Int := (parseIntOpt (trimStr s)).getD 0

/-- A typed keyword value as produced by the Parameter Typing Engine. -/
inductive TypedVal where
  | strV (v : String)
  | intV (v : Int)
  | floatV (v : ℚ)
  | boolV (v : Bool)
deriving DecidableEq

/-- Ordered keyword map with string values, the output shape of the
repository helper that decodes an argument string. -/
abbrev Kwargs := List (String × String)

/-- Inserts a key into an ordered keyword map: an existing key is replaced
in place (as a Python dict update keeps the original position), a new key
is appended at the end. -/
def kwInsert (l : Kwargs) (k v : String) : Kwargs :=
  if l.any (fun p => p.1 == k) then
    l.map (fun p => if p.1 == k then (k, v) else p)
  else l ++ [(k, v)]

/-- Looks a key up in an ordered keyword map. -/
def kwLookup (l : Kwargs) (k : String) : Option String := List.lookup k l

/-- Removes a key from an ordered keyword map (the pop calls of the
source). -/
def kwErase (l : Kwargs) (k : String) : Kwargs :=
  l.filter (fun p => p.1 != k)

/-- Folds parsed tokens into an ordered keyword map; a token without an
equals sign is malformed and raises ParseError carrying the token. -/
def getKwargsAux : List String → Kwargs → Except PyErr Kwargs
  | [], acc => .ok acc
  | t :: ts, acc =>
    match splitCharAux '=' t.data with
    | [k, v] => getKwargsAux ts (kwInsert acc (trimStr ⟨k⟩) (trimStr ⟨v⟩))
    | _ => .error (.parseError t)

/-- Modelled from the spec: the repository helper that turns a string of
comma-separated key=value tokens into an ordered keyword map (it lives in
the utils module, which is not under src/).  Values keep any type suffix
intact; duplicate keys are last-occurrence-wins; insertion order is
preserved; a malformed token raises ParseError. -/
def get_kwargs (s : String) : Except PyErr Kwargs :=
  getKwargsAux (splitStr s ',') []

/-- Infers the type of an unsuffixed keyword value: boolean literals first,
then integer, then float, else string. -/
def inferTyped (v : String) : TypedVal :=
  if strToLower v == "true" then .boolV true
  else if strToLower v == "false" then .boolV false
  else
    match parseIntOpt v with
    | some n => .intV n
    | none =>
      match parseRatOpt v with
      | some q => .floatV q
      | none => .strV v

/-- Coerces a keyword value to an explicitly requested type; a failed
coercion or an unknown type tag raises ParseError. -/
def coerceTyped (v ty : String) : Except PyErr TypedVal :=
  if strToLower ty == "str" then .ok (.strV v)
  else if strToLower ty == "int" then
    match parseIntOpt v with
    | some n => .ok (.intV n)
    | none => .error (.parseError v)
  else if strToLower ty == "float" then
    match parseRatOpt v with
    | some q => .ok (.floatV q)
    | none => .error (.parseError v)
  else if strToLower ty == "bool" then
    if strToLower v == "true" then .ok (.boolV true)
    else if strToLower v == "false" then .ok (.boolV false)
    else .error (.parseError v)
  else .error (.parseError ty)

/-- Splits one raw keyword value at the pipe character and types it. -/
def typedOfRaw (v : String) : Except PyErr TypedVal :=
  match splitCharAux '|' v.data with
  | [w] => .ok (inferTyped ⟨w⟩)
  | [w, ty] => coerceTyped ⟨w⟩ ⟨ty⟩
  | _ => .error (.parseError v)

/-- Modelled from the spec: the repository helper that converts the
remaining entries of a keyword map to typed values (also in the utils
module outside src/). -/
def get_kwargs_by_type : Kwargs → Except PyErr (List (String × TypedVal))
  | [] => .ok []
  | (k, v) :: rest => do
    let tv ← typedOfRaw v
    let r ← get_kwargs_by_type rest
    .ok ((k, tv) :: r)

/-- One row of the feature definitions frame attached by `set_features`
(lines 203-224): the columns of the request frame, indexed by feature
name, plus the sort_order column that `get_features` adds in place (line
274); `none` means the column has not been added for this row. -/
structure FeatureRow where
  model_name : String := ""
  name : String
  variable_type : String
  data_type : String := ""
  feature_strategy : String := ""
  hash_features : Int := 0
  sort_order : Option Nat := none
deriving DecidableEq

/-- Abstraction of a fitted sklearn pipeline, an external collaborator:
the class list of the estimation step in its native order, and opaque
outputs for the three predict variants.  The numeric behaviour is outside
the embedded layer. -/
structure FittedPipe where
  classes : List String := []
  predictOut : List String := []
  probaOut : List (List ℚ) := []
  logProbaOut : List (List ℚ) := []
deriving DecidableEq

/-- The persistent model entity.  Every field except the name is an
attribute that some code path may read before any assignment, so each is
an `Option`, with `none` for "never assigned"; `attr` turns such a read
into the AttributeError Python raises.  Note that dim_reduction_kwargs,
read by fit at line 363, is deliberately absent: no code path ever assigns
it (`_set_params` line 677 stores dim_reduction_args instead), so the read
is embedded as an access to a never-assigned attribute. -/
structure Model where
  name : String
  dim_reduction : Option Bool := none
  overwrite : Option Bool := none
  debug : Option Bool := none
  test_size : Option ℚ := none
  random_state : Option Int := none
  compress : Option Int := none
  retain_data : Option Bool := none
  scaler : Option String := none
  missing : Option String := none
  scale_hashed : Option Bool := none
  scaler_kwargs : Option (List (String × TypedVal)) := none
  estimator : Option String := none
  estimator_kwargs : Option (List (String × TypedVal)) := none
  reduction : Option String := none
  dim_reduction_args : Option (List (String × TypedVal)) := none
  features_df : Option (List FeatureRow) := none
  pipe : Option FittedPipe := none
  estimation_step : Option Nat := none
  score : Option ℚ := none
deriving DecidableEq

/-- Reads a dynamic attribute: `none` (never assigned) raises the
AttributeError naming the attribute. -/
def attr {α : Type} (attrName : String) : Option α → Except PyErr α
  | some a => .ok a
  | none => .error (.attributeError attrName)

/-- Embeds `_print_exception` (lines 871-883).  It writes the message to
stdout and then evaluates the guard on the debug attribute of the
SKLearnForQlik instance; that instance never assigns `debug` (every other
site reads it from the model object), so the guard itself raises
AttributeError.  In particular the exception object passed in is never
raised: the helper aborts with this unrelated AttributeError instead. -/
def printExceptionResult {α : Type} : Except PyErr α :=
  .error (.attributeError "debug")

/-- Lines 565-570: the execution parameter defaults, assigned
unconditionally before any keyword is consulted. -/
def execDefaults (m : Model) : Model :=
  { m with overwrite := some false, debug := some false,
           test_size := some (33/100), random_state := some 42,
           compress := some 3, retain_data := some false }

/-- Lines 581-604: each execution keyword, when present, overrides its
field.  The six if-statements of the source are independent (each touches
a distinct field), so they are rendered field-wise. -/
def applyExecKwargs (m : Model) (kw : Kwargs) : Model :=
  { m with
    overwrite :=
      match kwLookup kw "overwrite" with
      | some v => some (strToLower v == "true")
      | none => m.overwrite,
    test_size :=
      match kwLookup kw "test_size" with
      | some v => some (atof v)
      | none => m.test_size,
    random_state :=
      match kwLookup kw "random_state" with
      | some v => some (atoi v)
      | none => m.random_state,
    compress :=
      match kwLookup kw "compress" with
      | some v => some (atoi v)
      | none => m.compress,
    retain_data :=
      match kwLookup kw "retain_data" with
      | some v => some (strToLower v == "true")
      | none => m.retain_data,
    debug :=
      match kwLookup kw "debug" with
      | some v => some (strToLower v == "true")
      | none => m.debug }

/-- Lines 562-620: defaults, then the execution block, entered only for a
non-empty argument string.  The debug sub-branch only prepares a log file
and prints, so it has no embedded effect. -/
def execBlock (m : Model) (execution_args : String) : Except PyErr Model :=
  let m := execDefaults m
  if execution_args.length > 0 then do
    let kw ← get_kwargs execution_args
    .ok (applyExecKwargs m kw)
  else .ok m

/-- Lines 622-644: the scaler block.  With the scaler key present it pops
scaler, optionally missing and scale_hashed, and types the rest; with the
key absent it calls `_print_exception` and aborts the way that helper
does. -/
def scalerBlock (m : Model) (scaler_args : String) : Except PyErr Model :=
  if scaler_args.length > 0 then do
    let kw ← get_kwargs scaler_args
    match kwLookup kw "scaler" with
    | some sc =>
      let kw := kwErase kw "scaler"
      let mkw :=
        match kwLookup kw "missing" with
        | some v => ({ m with missing := some (strToLower v) }, kwErase kw "missing")
        | none => (m, kw)
      let mkw2 :=
        match kwLookup mkw.2 "scale_hashed" with
        | some v => ({ mkw.1 with scale_hashed := some (strToLower v == "true") },
                      kwErase mkw.2 "scale_hashed")
        | none => mkw
      do
        let skw ← get_kwargs_by_type mkw2.2
        .ok { mkw2.1 with scaler := some sc, scaler_kwargs := some skw }
    | none => printExceptionResult
  else .ok m

/-- Lines 646-662: the estimator block, same shape as the scaler block. -/
def estimatorBlock (m : Model) (estimator_args : String) : Except PyErr Model :=
  if estimator_args.length > 0 then do
    let kw ← get_kwargs estimator_args
    match kwLookup kw "estimator" with
    | some est => do
      let ekw ← get_kwargs_by_type (kwErase kw "estimator")
      .ok { m with estimator := some est, estimator_kwargs := some ekw }
    | none => printExceptionResult
  else .ok m

/-- Lines 664-680: the dimensionality reduction block, entered whenever
the argument is passed at all (the source tests for None, not emptiness).
Note the typed remainder is stored as dim_reduction_args. -/
def dimReductionBlock (m : Model) : Option String → Except PyErr Model
  | none => .ok m
  | some args => do
    let kw ← get_kwargs args
    match kwLookup kw "reduction" with
    | some red => do
      let rkw ← get_kwargs_by_type (kwErase kw "reduction")
      .ok { m with reduction := some red, dim_reduction_args := some rkw }
    | none => printExceptionResult

/-- `_set_params` (lines 550-684): execution, scaler, estimator and
dimensionality reduction blocks, in source order. -/
def setParams (m : Model) (estimator_args scaler_args execution_args : String)
    (dim_reduction_args : Option String) : Except PyErr Model := do
  let m1 ← execBlock m execution_args
  let m2 ← scalerBlock m1 scaler_args
  let m3 ← estimatorBlock m2 estimator_args
  dimReductionBlock m3 dim_reduction_args

/-- The keyword map the execution block of `_set_params` consults: the
parse of a non-empty execution argument string, and the empty map when the
string is empty (the block is skipped). -/
def parsedExecArgs (execution_args : String) : Except PyErr Kwargs :=
  if execution_args.length > 0 then get_kwargs execution_args else .ok []

/-- Lines 79-101: the key set of the closed estimator registry built in
the initializer.  The values are sklearn classes, external collaborators,
so the embedding records the keys and the lookup semantics. -/
def algorithmKeys : List String :=
  ["DummyClassifier", "DummyRegressor", "AdaBoostClassifier", "AdaBoostRegressor",
   "BaggingClassifier", "BaggingRegressor", "ExtraTreesClassifier", "ExtraTreesRegressor",
   "GradientBoostingClassifier", "GradientBoostingRegressor",
   "RandomForestClassifier", "RandomForestRegressor",
   "VotingClassifier", "GaussianProcessClassifier",
   "GaussianProcessRegressor", "LinearRegression",
   "LogisticRegression", "LogisticRegressionCV",
   "PassiveAggressiveClassifier", "PassiveAggressiveRegressor", "Perceptron",
   "RANSACRegressor", "Ridge", "RidgeClassifier",
   "RidgeCV", "RidgeClassifierCV", "SGDClassifier",
   "SGDRegressor", "TheilSenRegressor", "BernoulliNB",
   "GaussianNB", "MultinomialNB",
   "KNeighborsClassifier", "KNeighborsRegressor",
   "RadiusNeighborsClassifier", "RadiusNeighborsRegressor", "BernoulliRBM",
   "MLPClassifier", "MLPRegressor", "LinearSVC",
   "LinearSVR", "NuSVC", "NuSVR", "SVC", "SVR",
   "DecisionTreeClassifier", "DecisionTreeRegressor",
   "ExtraTreeClassifier", "ExtraTreeRegressor"]

/-- Line 103: the key set of the decomposer registry. -/
def decomposerKeys : List String :=
  ["PCA", "KernelPCA", "IncrementalPCA", "TruncatedSVD"]

/-- Line 355: subscripting the estimator registry.  An unknown key raises
the KeyError carrying that key. -/
def lookupAlgorithm (k : String) : Except PyErr Unit :=
  if k ∈ algorithmKeys then .ok () else .error (.keyError k)

/-- Line 363: subscripting the decomposer registry. -/
def lookupDecomposer (k : String) : Except PyErr Unit :=
  if k ∈ decomposerKeys then .ok () else .error (.keyError k)

/-- The class-level model cache, an ordered dictionary embedded as an
association list: head is the oldest entry, appending makes an entry the
most recent. -/
abbrev Cache := List (String × Model)

/-- The persistent model store, a name-indexed map abstracting the joblib
snapshots on disk. -/
abbrev Store := String → Option Model

/-- Line 61: the cache capacity. -/
def cacheLimit : Nat := 3

/-- `_update_cache` (lines 756-775), in source order: first, when the
cache is at the limit, the oldest entry is popped; then any entry under
the same name is deleted; finally the model is appended as the most
recent entry. -/
def updateCache (cache : Cache) (modelName : String) (m : Model) : Cache :=
  let c1 := if cache.length = cacheLimit then cache.tail else cache
  let c2 := if c1.any (fun p => p.1 == modelName) then
              c1.filter (fun p => p.1 != modelName)
            else c1
  c2 ++ [(modelName, m)]

/-- `_get_model` (lines 731-754): a cache hit returns the cached object
and leaves the cache untouched; a miss loads from the store (raising
NotFoundError when the snapshot is absent, abstracting the load failure of
the persistence helper) and then runs `_update_cache`. -/
def getModel (cache : Cache) (store : Store) (modelName : String) :
    Except PyErr (Model × Cache) :=
  match List.lookup modelName cache with
  | some m => .ok (m, cache)
  | none =>
    match store modelName with
    | some m => .ok (m, updateCache cache modelName m)
    | none => .error (.notFoundError modelName)

/-- The save call of the persistence helper (external to src/): records
the model under its own name. -/
def saveStore (store : Store) (m : Model) : Store :=
  fun k => if k == m.name then some m else store k

/-- Line 330: the roles removed from the feature matrix and, at line 334,
from the stored feature definitions themselves. -/
def excludedRoles : List String := ["excluded", "target", "identifier"]

/-- The rows `fit` keeps in the feature definitions frame at line 334. -/
def keepRow (r : FeatureRow) : Bool :=
  !(excludedRoles.contains r.variable_type)

/-- The contract part of `fit` (lines 321-337): select the rows with the
target role, take the name at position 0 of that selection (an IndexError
when the selection is empty; no count check exists), then drop the
excluded, target and identifier rows from the stored feature definitions.
Returns the updated model and the selected target name. -/
def fitFeatureStep (m : Model) : Except PyErr (Model × String) := do
  let fdf ← attr "features_df" m.features_df
  match (fdf.filter (fun r => r.variable_type == "target")).head? with
  | none => .error .indexError
  | some t =>
    .ok ({ m with features_df := some (fdf.filter keepRow) }, t.name)

/-- `fit` (lines 288-396) at the embedded layer: resolve the model through
cache and store, run the contract step, read every attribute the pipeline
construction of lines 350-367 evaluates, in evaluation order, and look the
estimator (and, with dimensionality reduction on, the decomposer) up in
the closed registries.  The numeric fitting and scoring of lines 370-373
are the external estimator, abstracted as an oracle; the model is then
saved (line 376) and the cache updated (line 379).  The read of
dim_reduction_kwargs at line 363 is a never-assigned attribute. -/
def fitCall (cache : Cache) (store : Store) (modelName : String)
    (oracle : Model → FittedPipe × ℚ) : Except PyErr (Model × Cache × Store) := do
  let mc ← getModel cache store modelName
  let ms ← fitFeatureStep mc.1
  let m1 := ms.1
  let _ ← attr "scale_hashed" m1.scale_hashed
  let _ ← attr "missing" m1.missing
  let _ ← attr "scaler" m1.scaler
  let _ ← attr "scaler_kwargs" m1.scaler_kwargs
  let estName ← attr "estimator" m1.estimator
  let _ ← lookupAlgorithm estName
  let _ ← attr "estimator_kwargs" m1.estimator_kwargs
  let m2 := { m1 with estimation_step := some 1 }
  let dimRed ← attr "dim_reduction" m2.dim_reduction
  let m3 ←
    if dimRed then do
      let redName ← attr "reduction" m2.reduction
      let _ ← lookupDecomposer redName
      let _ ← attr "dim_reduction_kwargs" (none : Option (List (String × TypedVal)))
      .ok m2
    else .ok m2
  let ps := oracle m3
  let m4 := { m3 with pipe := some ps.1, score := some ps.2 }
  .ok (m4, updateCache mc.2 m4.name m4, saveStore store m4)

/-- Line 274: the sort_order column written into the live feature
definitions frame, holding the consecutive values 1..n in row order. -/
def withSortOrder (fdf : List FeatureRow) : List FeatureRow :=
  fdf.enum.map (fun p => { p.2 with sort_order := some (p.1 + 1) })

/-- The model-level part of `get_features` (lines 272-276): reading the
feature definitions (an AttributeError when never assigned), writing the
sort_order column into that same frame, and returning the rows.  The
column reorder of line 275 produces the response copy and does not touch
the stored frame. -/
def getFeaturesModel (m : Model) : Except PyErr (Model × List FeatureRow) := do
  let fdf ← attr "features_df" m.features_df
  .ok ({ m with features_df := some (withSortOrder fdf) }, withSortOrder fdf)

/-- In-place mutation of the object a cache slot holds: the slot under the
given name now carries the mutated model, every other slot and the order
are untouched. -/
def cacheMutate (cache : Cache) (modelName : String) (m : Model) : Cache :=
  cache.map (fun p => if p.1 = modelName then (p.1, m) else p)

/-- `get_features` (lines 247-286) at the embedded layer: resolve the
model through cache and store, then mutate its live feature definitions
frame; because the cache slot aliases that same object, the cache now
carries the mutated model. -/
def getFeaturesCall (cache : Cache) (store : Store) (modelName : String) :
    Except PyErr (Cache × List FeatureRow) := do
  let mc ← getModel cache store modelName
  let mr ← getFeaturesModel mc.1
  .ok (cacheMutate mc.2 modelName mr.1, mr.2)

/-- One digit position of the three-decimal rendering. -/
def pad3 (k : Nat) : String :=
  ⟨[Nat.digitChar (k / 100 % 10), Nat.digitChar (k / 10 % 10), Nat.digitChar (k % 10)]⟩

/-- The scaled, rounded magnitude used by the three-decimal formatter. -/
def fmt3Scaled (q : ℚ) : Int := round (q * 1000)

/-- The part of the three-decimal rendering before the decimal point. -/
def fmt3IntPart (q : ℚ) : String :=
  (if fmt3Scaled q < 0 then "-" else "") ++ toString ((fmt3Scaled q).natAbs / 1000)

/-- The three fractional digits of the rendering, as a number below 1000. -/
def fmt3Frac (q : ℚ) : Nat := (fmt3Scaled q).natAbs % 1000

/-- Modelled: the Python fixed-point formatting of a probability to three
decimal places, over exact rationals (the float type is external to the
embedded layer).  The output is the signed integer part, a decimal point,
and exactly three digits. -/
def fmt3 (q : ℚ) : String := fmt3IntPart q ++ "." ++ pad3 (fmt3Frac q)

/-- The inner loop of lines 461-466: walks the probability vector with a
running index into the class list of the estimation step (an IndexError
when the vector is longer than the class list), appending a separator,
the class and the formatted value to the accumulator each time. -/
def formatRowAux (classes : List String) : List ℚ → Nat → String → Except PyErr String
  | [], _, s => .ok s
  | b :: rest, i, s =>
    match classes.get? i with
    | some c => formatRowAux classes rest (i + 1) (s ++ ", " ++ c ++ ": " ++ fmt3 b)
    | none => .error .indexError

/-- One response row of the probability variants (lines 462-467): the
accumulated string with its two leading separator characters sliced
off. -/
def formatProbRow (classes : List String) (probs : List ℚ) : Except PyErr String := do
  let s ← formatRowAux classes probs 0 ""
  .ok (s.drop 2)

/-- Lines 459-469: the probability list built row by row. -/
def predictProbaRows (classes : List String) : List (List ℚ) → Except PyErr (List String)
  | [] => .ok []
  | a :: rest => do
    let s ← formatProbRow classes a
    let r ← predictProbaRows classes rest
    .ok (s :: r)

/-- `predict` (lines 401-497) at the embedded layer: read the feature
definitions (used to shape the inbound rows), then the fitted pipeline
attribute; the probability variants format the per-class outputs of the
pipeline through the row formatter, the plain variant returns the opaque
label outputs.  A model never trained has no pipe attribute, so the read
aborts the call. -/
def predictCall (m : Model) (variant : String) : Except PyErr (List String) := do
  let _ ← attr "features_df" m.features_df
  let pipe ← attr "pipe" m.pipe
  if variant == "predict_proba" || variant == "predict_log_proba" then
    predictProbaRows pipe.classes
      (if variant == "predict_proba" then pipe.probaOut else pipe.logProbaOut)
  else .ok pipe.predictOut

/-- Spec-side rendering of a pair list: the class, a colon and space, and
the three-decimal value, the pairs joined by comma and space.  This is
the shape the spec asserts for a probability response row. -/
def probaPairsStr : List (String × ℚ) → String
  | [] => ""
  | [cp] => cp.1 ++ ": " ++ fmt3 cp.2
  | cp :: cq :: rest => cp.1 ++ ": " ++ fmt3 cp.2 ++ ", " ++ probaPairsStr (cq :: rest)

/-- Spec-side rendering of one probability response row: one pair per
class, the classes paired with the values in their native order. -/
def probaRowSpec (classes : List String) (probs : List ℚ) : String :=
  probaPairsStr (classes.zip probs)

/-- The separator-prefixed tail rendering that the source loop actually
accumulates: every pair carries its leading separator. -/
def probaTailStr : List (String × ℚ) → String
  | [] => ""
  | cp :: rest => ", " ++ cp.1 ++ ": " ++ fmt3 cp.2 ++ probaTailStr rest

/-- A freshly initialized persistent model carrying only its name, as
built at the start of each operation before `_get_model` or `_set_params`
runs. -/
def mkModel (n : String) : Model := { name := n }

/-- A store with no snapshots. -/
def emptyStore : Store := fun _ => none

/-- A fitted-pipeline stand-in with empty outputs, for oracles whose
outputs are irrelevant to the statement at hand. -/
def emptyPipe : FittedPipe := {}

/-- An external-fit oracle returning the empty pipe and score zero. -/
def zeroOracle : Model → FittedPipe × ℚ := fun _ => (emptyPipe, 0)

/-- One `put` of the eviction scenario of the spec: `_update_cache` run
for a model of the given name. -/
def cachePut (c : Cache) (n : String) : Cache := updateCache c n (mkModel n)

/-- The access sequence of the spec eviction example at capacity 3:
put m1, put m2, put m3, get m1 (a cache hit, handled by `_get_model`),
put m4. -/
def evictionScenario : Cache :=
  let c := cachePut [] "m1"
  let c := cachePut c "m2"
  let c := cachePut c "m3"
  let c :=
    match getModel c emptyStore "m1" with
    | .ok mc => mc.2
    | .error _ => []
  cachePut c "m4"

/-- A full cache holding three distinct names. -/
def fullCache : Cache :=
  [("a", mkModel "a"), ("b", mkModel "b"), ("c", mkModel "c")]

/-- Re-putting the already cached middle name into the full cache. -/
def reputResult : Cache := updateCache fullCache "b" (mkModel "b")

/-- Feature definitions with no target-role row. -/
def c4ZeroRows : List FeatureRow :=
  [{ name := "f1", variable_type := "feature", data_type := "float" },
   { name := "f2", variable_type := "feature", data_type := "float" }]

/-- A model whose contract has zero target-role rows. -/
def c4ZeroTargetModel : Model :=
  { name := "m4a", features_df := some c4ZeroRows }

/-- Feature definitions with two target-role rows. -/
def c4TwoRows : List FeatureRow :=
  [{ name := "f1", variable_type := "feature", data_type := "float" },
   { name := "y1", variable_type := "target", data_type := "int" },
   { name := "y2", variable_type := "target", data_type := "int" }]

/-- A model whose contract has two target-role rows. -/
def c4TwoTargetModel : Model :=
  { name := "m4b", features_df := some c4TwoRows }

/-- A model with features defined but never trained: no pipe attribute. -/
def c5UntrainedModel : Model :=
  { name := "m5",
    features_df := some [{ name := "f1", variable_type := "feature" }] }

/-- A fully configured model whose estimator name is not a registry
key. -/
def c6Model : Model :=
  { name := "m6",
    dim_reduction := some false,
    scaler := some "StandardScaler", missing := some "zeros",
    scale_hashed := some false, scaler_kwargs := some [],
    estimator := some "FooBar", estimator_kwargs := some [],
    features_df := some [{ name := "f1", variable_type := "feature" },
                         { name := "y", variable_type := "target" }] }

/-- A cache holding the misconfigured model. -/
def c6Cache : Cache := [("m6", c6Model)]

/-- A feature-role contract row. -/
def c7Row1 : FeatureRow :=
  { name := "f1", variable_type := "feature", data_type := "float" }

/-- A target-role contract row. -/
def c7RowY : FeatureRow :=
  { name := "y", variable_type := "target", data_type := "int" }

/-- An identifier-role contract row. -/
def c7RowId : FeatureRow :=
  { name := "id", variable_type := "identifier", data_type := "str" }

/-- The pipe the training oracle of the C7 witness returns. -/
def c7Pipe : FittedPipe := { classes := ["0", "1"] }

/-- A fully configured, feature-defined model ready to train. -/
def c7Model : Model :=
  { name := "m7",
    dim_reduction := some false,
    scaler := some "StandardScaler", missing := some "zeros",
    scale_hashed := some false, scaler_kwargs := some [],
    estimator := some "RandomForestClassifier", estimator_kwargs := some [],
    features_df := some [c7Row1, c7RowY, c7RowId] }

/-- A cache holding the ready-to-train model. -/
def c7Cache : Cache := [("m7", c7Model)]

/-- The training oracle of the C7 witness. -/
def c7Oracle : Model → FittedPipe × ℚ := fun _ => (c7Pipe, 1/2)

/-- The model state after the witnessed train call: contract filtered to
the feature-role row, pipeline and score attached. -/
def c7Trained : Model :=
  { c7Model with features_df := some [c7Row1], estimation_step := some 1,
                 pipe := some c7Pipe, score := some (1/2) }

/-- The model produced by the witnessed configure call of C9: execution
defaults, the named scaler and estimator, empty typed remainders. -/
def c9Result : Model :=
  { name := "m9", overwrite := some false, debug := some false,
    test_size := some (33/100), random_state := some 42,
    compress := some 3, retain_data := some false,
    scaler := some "StandardScaler", scaler_kwargs := some [],
    estimator := some "RandomForestClassifier", estimator_kwargs := some [] }

/-- A two-row contract for the get-features witness. -/
def c10Rows : List FeatureRow :=
  [{ name := "f1", variable_type := "feature", data_type := "float" },
   { name := "y", variable_type := "target", data_type := "int" }]

/-- A cached model whose contract has no sort_order column yet. -/
def c10Model : Model := { name := "m10", features_df := some c10Rows }

/-- A cache holding that model. -/
def c10Cache : Cache := [("m10", c10Model)]

/-- The cached model after the witnessed get-features call: the live
contract now carries the sort_order column. -/
def c10Mutated : Model :=
  { c10Model with features_df := some (withSortOrder c10Rows) }

theorem getModel_hit (cache : Cache) (store : Store) (n : String) (m : Model)
    (h : List.lookup n cache = some m) : getModel cache store n = .ok (m, cache) := by
  simp [getModel, h]

/-- C1: the claim asserts that a cache hit promotes the entry to
most-recently-used and that the capacity-3 access sequence put m1, put m2,
put m3, get m1 (hit), put m4 leaves exactly the names m3, m1, m4 with m2
evicted.  On the code a hit does not touch the cache, so the sequence
leaves m2, m3, m4: m2 is retained and m1 is the evicted name, refuting
both parts. -/
theorem c1_counterexample :
    evictionScenario.map Prod.fst = ["m2", "m3", "m4"] ∧
    "m1" ∉ evictionScenario.map Prod.fst ∧
    "m2" ∈ evictionScenario.map Prod.fst := by
  refine ⟨rfl, by decide, by decide⟩

/-- C1 (amended): a cache hit in `_get_model` returns the cached object
and leaves the cache completely unchanged, with no promotion to
most-recently-used; consequently the spec eviction sequence ends with the
cache holding m2, m3, m4 in that recency order, m1 having been evicted by
the final put. -/
theorem c1_hit_does_not_promote :
    (∀ (cache : Cache) (store : Store) (n : String) (m : Model),
        List.lookup n cache = some m → getModel cache store n = .ok (m, cache)) ∧
    evictionScenario.map Prod.fst = ["m2", "m3", "m4"] :=
  ⟨fun cache store n m h => getModel_hit cache store n m h, rfl⟩

theorem c1_hit_does_not_promote_witness :
    getModel [("a", mkModel "a")] emptyStore "a"
      = .ok (mkModel "a", [("a", mkModel "a")]) :=
  c1_hit_does_not_promote.1 [("a", mkModel "a")] emptyStore "a" (mkModel "a") rfl

/-- C2: the claim asserts that a put removes the prior same-name entry
first and evicts the least-recently-used entry only if the cache is still
at capacity, so that re-putting a cached name into a full cache never
evicts a different name and leaves the cache exactly at capacity.  On the
code `_update_cache` pops the oldest entry before deduplicating: re-putting
b into the full cache a, b, c evicts a (a different name) and leaves two
entries, not three. -/
theorem c2_counterexample :
    reputResult.map Prod.fst = ["c", "b"] ∧
    reputResult.length ≠ cacheLimit ∧
    "a" ∉ reputResult.map Prod.fst := by
  refine ⟨rfl, by decide, by decide⟩

/-- C2 (amended): `_update_cache` first pops the oldest entry whenever the
cache is at capacity, then deletes any remaining entry under the same
name, then appends the model as most-recently-used; hence putting an
already-cached name other than the oldest into a full capacity-3 cache
evicts the oldest entry, a different name, and leaves the cache one below
capacity, with the new entry most recent. -/
theorem c2_evicts_oldest_before_dedup (a b c : String × Model) (m : Model) (n : String)
    (hab : a.1 ≠ b.1) (hac : a.1 ≠ c.1) (hbc : b.1 ≠ c.1)
    (hn : n = b.1 ∨ n = c.1) :
    (updateCache [a, b, c] n m).length = cacheLimit - 1 ∧
    a.1 ∉ (updateCache [a, b, c] n m).map Prod.fst ∧
    (updateCache [a, b, c] n m).getLast? = some (n, m) := by
  have hcb : c.1 ≠ b.1 := fun h => hbc h.symm
  have hb1 : (c.1 != b.1) = true := bne_iff_ne.mpr hcb
  have hb2 : (b.1 != c.1) = true := bne_iff_ne.mpr hbc
  rcases hn with hn | hn <;> subst hn <;>
    simp [updateCache, cacheLimit, List.filter, hab, hac, hbc, hcb, hb1, hb2,
          Prod.ext_iff]

theorem c2_evicts_oldest_before_dedup_witness :
    (updateCache fullCache "b" (mkModel "b")).length = cacheLimit - 1 ∧
    "a" ∉ (updateCache fullCache "b" (mkModel "b")).map Prod.fst ∧
    (updateCache fullCache "b" (mkModel "b")).getLast? = some ("b", mkModel "b") :=
  c2_evicts_oldest_before_dedup ("a", mkModel "a") ("b", mkModel "b") ("c", mkModel "c")
    (mkModel "b") "b" (by decide) (by decide) (by decide) (Or.inl rfl)

/-- C3: evaluation of `_set_params` at configure calls whose non-empty
estimator argument lacks the estimator key, whose non-empty scaler
argument lacks the scaler key, or whose dimensionality-reduction argument
lacks the reduction key.  The claim and the error-handling section of the
spec say ConfigError is raised; the code instead hands the message to
`_print_exception`, which prints and then aborts on the never-assigned
debug attribute of the instance, so each call fails with that
AttributeError and no ConfigError exists anywhere in the path.  No
pipeline stage is built during configure in any case (stages are built by
fit). -/
theorem c3_missing_selector_behavior :
    setParams (mkModel "m3") "n_estimators=10|int" "scaler=StandardScaler" "" none
      = .error (.attributeError "debug") ∧
    setParams (mkModel "m3") "estimator=RandomForestClassifier" "with_mean=true|bool" "" none
      = .error (.attributeError "debug") ∧
    setParams (mkModel "m3") "estimator=RandomForestClassifier" "scaler=StandardScaler" ""
      (some "n_components=2|int")
      = .error (.attributeError "debug") :=
  ⟨rfl, rfl, rfl⟩

/-- C4: the claim asserts that a train call raises ConfigError when the
contract has zero or more than one target-role entries.  On the code the
target selection of fit has no count check: with zero targets it fails
with the IndexError of indexing an empty selection, and with two targets
it succeeds outright, silently using the first target-role row. -/
theorem c4_counterexample :
    fitFeatureStep c4ZeroTargetModel = .error .indexError ∧
    fitFeatureStep c4TwoTargetModel =
      .ok ({ c4TwoTargetModel with features_df := some (c4TwoRows.filter keepRow) },
           "y1") :=
  ⟨rfl, rfl⟩

/-- C4 (amended): the contract step of fit enforces no target count: with
zero target-role rows it fails with an IndexError (not a ConfigError),
and with one or more it succeeds, selecting the name of the first
target-role row and filtering the stored contract, so training proceeds
even with multiple targets. -/
theorem c4_no_target_count_check (m : Model) (fdf : List FeatureRow)
    (h : m.features_df = some fdf) :
    ((fdf.filter (fun r => r.variable_type == "target")) = [] →
      fitFeatureStep m = .error .indexError) ∧
    (∀ t ts, (fdf.filter (fun r => r.variable_type == "target")) = t :: ts →
      fitFeatureStep m =
        .ok ({ m with features_df := some (fdf.filter keepRow) }, t.name)) := by
  constructor
  · intro he
    simp only [fitFeatureStep, attr, h, he, Bind.bind, Except.bind, List.head?]
  · intro t ts ht
    simp only [fitFeatureStep, attr, h, ht, Bind.bind, Except.bind, List.head?]

theorem c4_no_target_count_check_witness :
    fitFeatureStep c4ZeroTargetModel = .error .indexError :=
  (c4_no_target_count_check c4ZeroTargetModel c4ZeroRows rfl).1 rfl

/-- C5: predict, predict-proba and predict-log-proba on a model that
never reached the trained state.  The code has no explicit state check;
the call aborts because an attribute the path reads was never assigned:
the features frame when no features were ever defined, otherwise the
pipe attribute, which only a completed fit assigns.  This unconditional
failure on an untrained model is the behaviour the spec abstracts as
StateError. -/
theorem c5_predict_requires_trained (m : Model) (variant : String)
    (h : m.pipe = none) :
    predictCall m variant = .error (.attributeError "features_df") ∨
    predictCall m variant = .error (.attributeError "pipe") := by
  cases hf : m.features_df with
  | none =>
    exact Or.inl (by simp only [predictCall, attr, hf, Bind.bind, Except.bind])
  | some fdf =>
    exact Or.inr (by simp only [predictCall, attr, hf, h, Bind.bind, Except.bind])

theorem c5_predict_requires_trained_witness :
    predictCall c5UntrainedModel "predict_proba"
        = .error (.attributeError "features_df") ∨
    predictCall c5UntrainedModel "predict_proba"
        = .error (.attributeError "pipe") :=
  c5_predict_requires_trained c5UntrainedModel "predict_proba" rfl

/-- C6: looking an unknown name up in the closed estimator registry, or
the closed decomposer registry when dimensionality reduction is on, fails
with the error naming exactly the attempted key (the Python KeyError the
registry subscript raises, which is the failure the spec calls
ConfigError); and a train call reaching the registry with such a
configured estimator name aborts with that same error. -/
theorem c6_unknown_name_lookup (k : String)
    (h1 : k ∉ algorithmKeys) (h2 : k ∉ decomposerKeys) :
    lookupAlgorithm k = .error (.keyError k) ∧
    lookupDecomposer k = .error (.keyError k) ∧
    (∀ (cache : Cache) (store : Store) (nm : String)
        (oracle : Model → FittedPipe × ℚ) (m : Model) (fdf : List FeatureRow)
        (t : FeatureRow) (ts : List FeatureRow) (sh : Bool) (mi sc : String)
        (skw ekw : List (String × TypedVal)),
        List.lookup nm cache = some m →
        m.features_df = some fdf →
        (fdf.filter (fun r => r.variable_type == "target")) = t :: ts →
        m.scale_hashed = some sh → m.missing = some mi → m.scaler = some sc →
        m.scaler_kwargs = some skw → m.estimator = some k →
        m.estimator_kwargs = some ekw →
        fitCall cache store nm oracle = .error (.keyError k)) := by
  refine ⟨by simp [lookupAlgorithm, h1], by simp [lookupDecomposer, h2], ?_⟩
  intro cache store nm oracle m fdf t ts sh mi sc skw ekw
  intro hl hf ht hsh hmi hsc hskw hest hekw
  simp only [fitCall, getModel, hl, fitFeatureStep, attr, hf, ht, hsh, hmi, hsc,
             hskw, hest, hekw, lookupAlgorithm, List.head?, Bind.bind, Except.bind,
             if_neg h1]

theorem c6_unknown_name_lookup_witness :
    fitCall c6Cache emptyStore "m6" zeroOracle = .error (.keyError "FooBar") :=
  (c6_unknown_name_lookup "FooBar" (by decide) (by decide)).2.2 c6Cache emptyStore
    "m6" zeroOracle c6Model
    [{ name := "f1", variable_type := "feature" }, { name := "y", variable_type := "target" }]
    { name := "y", variable_type := "target" } [] false "zeros" "StandardScaler" [] []
    rfl rfl rfl rfl rfl rfl rfl rfl rfl

theorem withSortOrder_names (l : List FeatureRow) :
    (withSortOrder l).map (fun r => r.name) = l.map (fun r => r.name) := by
  unfold withSortOrder
  rw [List.map_map]
  conv_rhs => rw [← List.enum_map_snd l, List.map_map]
  rfl

theorem withSortOrder_column (l : List FeatureRow) :
    (withSortOrder l).map (fun r => r.sort_order)
      = (List.range l.length).map (fun i => some (i + 1)) := by
  unfold withSortOrder
  rw [List.map_map]
  conv_rhs => rw [← List.enum_map_fst l, List.map_map]
  rfl

/-- C7: every successful train call filters the excluded, target and
identifier rows out of the stored contract: the returned model carries the
filtered contract, the persisted snapshot under its name is that same
model, the cache slot written back is that same model most recently used,
and a subsequent get-features on it returns exactly the remaining
feature-role rows (with their sort_order column added in place, names
unchanged). -/
theorem c7_train_filters_contract (cache : Cache) (store : Store) (nm : String)
    (oracle : Model → FittedPipe × ℚ) (m : Model) (c1 : Cache)
    (fdf : List FeatureRow) (m2 : Model) (c2 : Cache) (s2 : Store)
    (h1 : getModel cache store nm = .ok (m, c1))
    (h2 : m.features_df = some fdf)
    (h3 : fitCall cache store nm oracle = .ok (m2, c2, s2)) :
    m2.features_df = some (fdf.filter keepRow) ∧
    s2 m2.name = some m2 ∧
    c2 = updateCache c1 m2.name m2 ∧
    getFeaturesModel m2 =
      .ok ({ m2 with features_df := some (withSortOrder (fdf.filter keepRow)) },
           withSortOrder (fdf.filter keepRow)) ∧
    (withSortOrder (fdf.filter keepRow)).map (fun r => r.name)
      = (fdf.filter keepRow).map (fun r => r.name) := by
  simp only [fitCall, h1, Bind.bind, Except.bind] at h3
  cases hh : (fdf.filter (fun r => r.variable_type == "target")).head? with
  | none =>
    simp only [fitFeatureStep, attr, h2, hh, Bind.bind, Except.bind] at h3
    exact Except.noConfusion h3
  | some t =>
    simp only [fitFeatureStep, attr, h2, hh, Bind.bind, Except.bind] at h3
    cases hsh : m.scale_hashed with
    | none => simp only [hsh, attr] at h3; exact Except.noConfusion h3
    | some sh =>
      simp only [hsh, attr] at h3
      cases hmi : m.missing with
      | none => simp only [hmi, attr] at h3; exact Except.noConfusion h3
      | some mi =>
        simp only [hmi, attr] at h3
        cases hsc : m.scaler with
        | none => simp only [hsc, attr] at h3; exact Except.noConfusion h3
        | some sc =>
          simp only [hsc, attr] at h3
          cases hskw : m.scaler_kwargs with
          | none => simp only [hskw, attr] at h3; exact Except.noConfusion h3
          | some skw =>
            simp only [hskw, attr] at h3
            cases hest : m.estimator with
            | none => simp only [hest, attr] at h3; exact Except.noConfusion h3
            | some k =>
              simp only [hest, attr] at h3
              by_cases hmem : k ∈ algorithmKeys
              · simp only [lookupAlgorithm, if_pos hmem] at h3
                cases hekw : m.estimator_kwargs with
                | none => simp only [hekw, attr] at h3; exact Except.noConfusion h3
                | some ekw =>
                  simp only [hekw, attr] at h3
                  cases hdim : m.dim_reduction with
                  | none => simp only [hdim, attr] at h3; exact Except.noConfusion h3
                  | some dr =>
                    simp only [hdim, attr] at h3
                    cases dr with
                    | true =>
                      cases hred : m.reduction with
                      | none =>
                        simp [hred, attr, Bind.bind, Except.bind] at h3
                      | some rn =>
                        by_cases hrm : rn ∈ decomposerKeys
                        · simp [hred, attr, lookupDecomposer, hrm,
                                Bind.bind, Except.bind] at h3
                        · simp [hred, attr, lookupDecomposer, hrm,
                                Bind.bind, Except.bind] at h3
                    | false =>
                      simp only [Bind.bind, Except.bind, Bool.false_eq_true,
                                 if_false, Except.ok.injEq, Prod.mk.injEq] at h3
                      obtain ⟨hm, hc, hs⟩ := h3
                      subst hm hc hs
                      exact ⟨rfl, by simp [saveStore], rfl, rfl,
                             withSortOrder_names (fdf.filter keepRow)⟩
              · simp only [lookupAlgorithm, if_neg hmem] at h3
                exact Except.noConfusion h3

theorem c7_train_filters_contract_witness :
    c7Trained.features_df = some ([c7Row1, c7RowY, c7RowId].filter keepRow) ∧
    saveStore emptyStore c7Trained c7Trained.name = some c7Trained ∧
    updateCache c7Cache c7Trained.name c7Trained
      = updateCache c7Cache c7Trained.name c7Trained ∧
    getFeaturesModel c7Trained =
      .ok ({ c7Trained with
             features_df := some (withSortOrder ([c7Row1, c7RowY, c7RowId].filter keepRow)) },
           withSortOrder ([c7Row1, c7RowY, c7RowId].filter keepRow)) ∧
    (withSortOrder ([c7Row1, c7RowY, c7RowId].filter keepRow)).map (fun r => r.name)
      = ([c7Row1, c7RowY, c7RowId].filter keepRow).map (fun r => r.name) :=
  c7_train_filters_contract c7Cache emptyStore "m7" c7Oracle c7Model c7Cache
    [c7Row1, c7RowY, c7RowId] c7Trained
    (updateCache c7Cache c7Trained.name c7Trained) (saveStore emptyStore c7Trained)
    rfl rfl rfl

theorem strDropTwo (x : String) : (", " ++ x).drop 2 = x := by
  rw [String.drop_eq]
  simp [String.data_append]

theorem probaTail_eq_sep_pairs :
    ∀ (l : List (String × ℚ)), l ≠ [] →
      probaTailStr l = ", " ++ probaPairsStr l := by
  intro l
  induction l with
  | nil => intro h; exact absurd rfl h
  | cons cp rest ih =>
    intro _
    cases rest with
    | nil =>
      simp [probaTailStr, probaPairsStr, String.append_empty, String.append_assoc]
    | cons d ds =>
      rw [show probaTailStr (cp :: d :: ds)
            = ", " ++ cp.1 ++ ": " ++ fmt3 cp.2 ++ probaTailStr (d :: ds) from rfl]
      rw [ih (by simp)]
      rw [show probaPairsStr (cp :: d :: ds)
            = cp.1 ++ ": " ++ fmt3 cp.2 ++ ", " ++ probaPairsStr (d :: ds) from rfl]
      simp [String.append_assoc]

theorem formatRowAux_ok (classes : List String) :
    ∀ (probs : List ℚ) (i : Nat) (s : String),
      probs.length = (classes.drop i).length →
      formatRowAux classes probs i s
        = .ok (s ++ probaTailStr ((classes.drop i).zip probs)) := by
  intro probs
  induction probs with
  | nil =>
    intro i s _
    simp [formatRowAux, probaTailStr, String.append_empty, List.zip_nil_right]
  | cons b rest ih =>
    intro i s h
    have hlen : i < classes.length := by
      by_contra hge
      push_neg at hge
      rw [List.drop_eq_nil_of_le hge] at h
      simp at h
    have hget : classes.get? i = some classes[i] := by
      rw [List.get?_eq_getElem?, List.getElem?_eq_getElem hlen]
    have hdrop : classes.drop i = classes[i] :: classes.drop (i + 1) :=
      List.drop_eq_getElem_cons hlen
    have hlen2 : rest.length = (classes.drop (i + 1)).length := by
      simp only [List.length_cons, List.length_drop] at h ⊢
      omega
    rw [show formatRowAux classes (b :: rest) i s
          = (match classes.get? i with
             | some c => formatRowAux classes rest (i + 1) (s ++ ", " ++ c ++ ": " ++ fmt3 b)
             | none => .error .indexError) from rfl]
    rw [hget]
    rw [show (match some classes[i] with
          | some c => formatRowAux classes rest (i + 1) (s ++ ", " ++ c ++ ": " ++ fmt3 b)
          | none => (Except.error PyErr.indexError : Except PyErr String))
          = formatRowAux classes rest (i + 1) (s ++ ", " ++ classes[i] ++ ": " ++ fmt3 b)
        from rfl]
    rw [ih (i + 1) _ hlen2]
    rw [hdrop]
    rw [show ((classes[i] :: classes.drop (i + 1)).zip (b :: rest))
          = (classes[i], b) :: ((classes.drop (i + 1)).zip rest) from rfl]
    rw [show probaTailStr ((classes[i], b) :: ((classes.drop (i + 1)).zip rest))
          = ", " ++ classes[i] ++ ": " ++ fmt3 b
              ++ probaTailStr ((classes.drop (i + 1)).zip rest) from rfl]
    simp [String.append_assoc]

theorem formatProbRow_ok (classes : List String) (probs : List ℚ)
    (h : probs.length = classes.length) :
    formatProbRow classes probs = .ok (probaRowSpec classes probs) := by
  unfold formatProbRow
  rw [formatRowAux_ok classes probs 0 "" (by simpa using h)]
  simp only [Bind.bind, Except.bind, List.drop_zero, String.empty_append]
  unfold probaRowSpec
  cases hz : classes.zip probs with
  | nil => simp [probaTailStr, probaPairsStr]
  | cons cp rest =>
    rw [probaTail_eq_sep_pairs (cp :: rest) (by simp), strDropTwo]

theorem predictProbaRows_ok (classes : List String) :
    ∀ (ys : List (List ℚ)), (∀ row ∈ ys, row.length = classes.length) →
      predictProbaRows classes ys = .ok (ys.map (probaRowSpec classes)) := by
  intro ys
  induction ys with
  | nil => intro _; simp [predictProbaRows]
  | cons a rest ih =>
    intro h
    rw [show predictProbaRows classes (a :: rest)
          = (do
              let s ← formatProbRow classes a
              let r ← predictProbaRows classes rest
              .ok (s :: r)) from rfl]
    rw [formatProbRow_ok classes a (h a (by simp))]
    rw [ih (fun row hr => h row (by simp [hr]))]
    rfl

/-- C8: on a trained model, each probability response row (for
predict-proba, and for predict-log-proba whose log-scale outputs flow
through the same loop) is the comma-separated list of one class-colon-value
pair per class, the classes paired with the values in the native order of
the class list of the estimation step; and the formatter always renders a
signed integer part, a decimal point and exactly three digits. -/
theorem c8_proba_row_format (classes : List String) (ys : List (List ℚ))
    (h : ∀ row ∈ ys, row.length = classes.length) :
    predictProbaRows classes ys = .ok (ys.map (probaRowSpec classes)) ∧
    (∀ q : ℚ, fmt3 q = fmt3IntPart q ++ "." ++ pad3 (fmt3Frac q) ∧
        (pad3 (fmt3Frac q)).length = 3 ∧ fmt3Frac q < 1000) :=
  ⟨predictProbaRows_ok classes ys h,
   fun q => ⟨rfl, rfl, Nat.mod_lt _ (by norm_num)⟩⟩

theorem c8_proba_row_format_witness :
    predictProbaRows ["a", "b"] [[(1 : ℚ)/4, 3/4]]
      = .ok ([[(1 : ℚ)/4, 3/4]].map (probaRowSpec ["a", "b"])) :=
  (c8_proba_row_format ["a", "b"] [[(1 : ℚ)/4, 3/4]] (by decide)).1

theorem execBlock_ok (m : Model) (ex : String) (kw : Kwargs)
    (hkw : parsedExecArgs ex = .ok kw) :
    execBlock m ex = .ok (applyExecKwargs (execDefaults m) kw) := by
  unfold parsedExecArgs at hkw
  unfold execBlock
  by_cases hx : ex.length > 0
  · rw [if_pos hx] at hkw
    rw [if_pos hx, hkw]
    rfl
  · rw [if_neg hx] at hkw
    rw [if_neg hx]
    obtain rfl : ([] : Kwargs) = kw := by
      injection hkw
    rfl

theorem scalerBlock_preserves_exec (m m' : Model) (sargs : String)
    (h : scalerBlock m sargs = .ok m') :
    m'.overwrite = m.overwrite ∧ m'.test_size = m.test_size ∧
    m'.random_state = m.random_state ∧ m'.compress = m.compress ∧
    m'.retain_data = m.retain_data ∧ m'.debug = m.debug := by
  unfold scalerBlock at h
  split at h
  · cases hg : get_kwargs sargs with
    | error e =>
      simp only [hg, Bind.bind, Except.bind] at h
      exact Except.noConfusion h
    | ok kw =>
      simp only [hg, Bind.bind, Except.bind] at h
      cases hl : kwLookup kw "scaler" with
      | none =>
        simp only [hl, printExceptionResult] at h
        exact Except.noConfusion h
      | some sc =>
        simp only [hl] at h
        cases hm1 : kwLookup (kwErase kw "scaler") "missing" with
        | none =>
          simp only [hm1] at h
          cases hm2 : kwLookup (kwErase kw "scaler") "scale_hashed" with
          | none =>
            simp only [hm2] at h
            cases hq : get_kwargs_by_type (kwErase kw "scaler") with
            | error e =>
              simp only [hq, Bind.bind, Except.bind] at h
              exact Except.noConfusion h
            | ok skw =>
              simp only [hq, Bind.bind, Except.bind, Except.ok.injEq] at h
              subst h
              exact ⟨rfl, rfl, rfl, rfl, rfl, rfl⟩
          | some v2 =>
            simp only [hm2] at h
            cases hq : get_kwargs_by_type
                (kwErase (kwErase kw "scaler") "scale_hashed") with
            | error e =>
              simp only [hq, Bind.bind, Except.bind] at h
              exact Except.noConfusion h
            | ok skw =>
              simp only [hq, Bind.bind, Except.bind, Except.ok.injEq] at h
              subst h
              exact ⟨rfl, rfl, rfl, rfl, rfl, rfl⟩
        | some v1 =>
          simp only [hm1] at h
          cases hm2 : kwLookup (kwErase (kwErase kw "scaler") "missing")
              "scale_hashed" with
          | none =>
            simp only [hm2] at h
            cases hq : get_kwargs_by_type (kwErase (kwErase kw "scaler") "missing") with
            | error e =>
              simp only [hq, Bind.bind, Except.bind] at h
              exact Except.noConfusion h
            | ok skw =>
              simp only [hq, Bind.bind, Except.bind, Except.ok.injEq] at h
              subst h
              exact ⟨rfl, rfl, rfl, rfl, rfl, rfl⟩
          | some v2 =>
            simp only [hm2] at h
            cases hq : get_kwargs_by_type
                (kwErase (kwErase (kwErase kw "scaler") "missing") "scale_hashed") with
            | error e =>
              simp only [hq, Bind.bind, Except.bind] at h
              exact Except.noConfusion h
            | ok skw =>
              simp only [hq, Bind.bind, Except.bind, Except.ok.injEq] at h
              subst h
              exact ⟨rfl, rfl, rfl, rfl, rfl, rfl⟩
  · cases h
    exact ⟨rfl, rfl, rfl, rfl, rfl, rfl⟩

theorem estimatorBlock_preserves_exec (m m' : Model) (eargs : String)
    (h : estimatorBlock m eargs = .ok m') :
    m'.overwrite = m.overwrite ∧ m'.test_size = m.test_size ∧
    m'.random_state = m.random_state ∧ m'.compress = m.compress ∧
    m'.retain_data = m.retain_data ∧ m'.debug = m.debug := by
  unfold estimatorBlock at h
  split at h
  · cases hg : get_kwargs eargs with
    | error e =>
      simp only [hg, Bind.bind, Except.bind] at h
      exact Except.noConfusion h
    | ok kw =>
      simp only [hg, Bind.bind, Except.bind] at h
      cases hl : kwLookup kw "estimator" with
      | none =>
        simp only [hl, printExceptionResult] at h
        exact Except.noConfusion h
      | some est =>
        simp only [hl] at h
        cases hq : get_kwargs_by_type (kwErase kw "estimator") with
        | error e =>
          simp only [hq, Bind.bind, Except.bind] at h
          exact Except.noConfusion h
        | ok ekw =>
          simp only [hq, Bind.bind, Except.bind, Except.ok.injEq] at h
          subst h
          exact ⟨rfl, rfl, rfl, rfl, rfl, rfl⟩
  · cases h
    exact ⟨rfl, rfl, rfl, rfl, rfl, rfl⟩

theorem dimReductionBlock_preserves_exec (m m' : Model) (da : Option String)
    (h : dimReductionBlock m da = .ok m') :
    m'.overwrite = m.overwrite ∧ m'.test_size = m.test_size ∧
    m'.random_state = m.random_state ∧ m'.compress = m.compress ∧
    m'.retain_data = m.retain_data ∧ m'.debug = m.debug := by
  cases da with
  | none =>
    cases h
    exact ⟨rfl, rfl, rfl, rfl, rfl, rfl⟩
  | some args =>
    unfold dimReductionBlock at h
    cases hg : get_kwargs args with
    | error e =>
      simp only [hg, Bind.bind, Except.bind] at h
      exact Except.noConfusion h
    | ok kw =>
      simp only [hg, Bind.bind, Except.bind] at h
      cases hl : kwLookup kw "reduction" with
      | none =>
        simp only [hl, printExceptionResult] at h
        exact Except.noConfusion h
      | some red =>
        simp only [hl] at h
        cases hq : get_kwargs_by_type (kwErase kw "reduction") with
        | error e =>
          simp only [hq, Bind.bind, Except.bind] at h
          exact Except.noConfusion h
        | ok rkw =>
          simp only [hq, Bind.bind, Except.bind, Except.ok.injEq] at h
          subst h
          exact ⟨rfl, rfl, rfl, rfl, rfl, rfl⟩

/-- C9: a configure call that omits an optional execution keyword leaves
the documented default on the model: overwrite false, test_size 0.33,
random_state 42, compression level 3, retain_data false, debug false.
The keyword map is the one the execution block consults: the parse of a
non-empty execution argument string, empty when the string is empty. -/
theorem c9_execution_defaults (est sc ex : String) (da : Option String)
    (m0 mr : Model) (kw : Kwargs)
    (hok : setParams m0 est sc ex da = .ok mr)
    (hkw : parsedExecArgs ex = .ok kw) :
    (kwLookup kw "overwrite" = none → mr.overwrite = some false) ∧
    (kwLookup kw "test_size" = none → mr.test_size = some (33/100)) ∧
    (kwLookup kw "random_state" = none → mr.random_state = some 42) ∧
    (kwLookup kw "compress" = none → mr.compress = some 3) ∧
    (kwLookup kw "retain_data" = none → mr.retain_data = some false) ∧
    (kwLookup kw "debug" = none → mr.debug = some false) := by
  unfold setParams at hok
  rw [execBlock_ok m0 ex kw hkw] at hok
  simp only [Bind.bind, Except.bind] at hok
  cases hsb : scalerBlock (applyExecKwargs (execDefaults m0) kw) sc with
  | error e =>
    simp only [hsb] at hok
    exact Except.noConfusion hok
  | ok m2 =>
    simp only [hsb] at hok
    cases heb : estimatorBlock m2 est with
    | error e =>
      simp only [heb] at hok
      exact Except.noConfusion hok
    | ok m3 =>
      simp only [heb] at hok
      have p1 := scalerBlock_preserves_exec _ m2 sc hsb
      have p2 := estimatorBlock_preserves_exec m2 m3 est heb
      have p3 := dimReductionBlock_preserves_exec m3 mr da hok
      refine ⟨?_, ?_, ?_, ?_, ?_, ?_⟩ <;> intro hnone
      · rw [p3.1, p2.1, p1.1]
        simp [applyExecKwargs, execDefaults, hnone]
      · rw [p3.2.1, p2.2.1, p1.2.1]
        simp [applyExecKwargs, execDefaults, hnone]
      · rw [p3.2.2.1, p2.2.2.1, p1.2.2.1]
        simp [applyExecKwargs, execDefaults, hnone]
      · rw [p3.2.2.2.1, p2.2.2.2.1, p1.2.2.2.1]
        simp [applyExecKwargs, execDefaults, hnone]
      · rw [p3.2.2.2.2.1, p2.2.2.2.2.1, p1.2.2.2.2.1]
        simp [applyExecKwargs, execDefaults, hnone]
      · rw [p3.2.2.2.2.2, p2.2.2.2.2.2, p1.2.2.2.2.2]
        simp [applyExecKwargs, execDefaults, hnone]

theorem c9_execution_defaults_witness :
    c9Result.overwrite = some false ∧ c9Result.test_size = some (33/100) ∧
    c9Result.random_state = some 42 ∧ c9Result.compress = some 3 ∧
    c9Result.retain_data = some false ∧ c9Result.debug = some false := by
  have h := c9_execution_defaults "estimator=RandomForestClassifier"
    "scaler=StandardScaler" "" none (mkModel "m9") c9Result [] rfl rfl
  exact ⟨h.1 rfl, h.2.1 rfl, h.2.2.1 rfl, h.2.2.2.1 rfl,
         h.2.2.2.2.1 rfl, h.2.2.2.2.2 rfl⟩

theorem lookup_cacheMutate (cache : Cache) (nm : String) (m m' : Model)
    (h : List.lookup nm cache = some m) :
    List.lookup nm (cacheMutate cache nm m') = some m' := by
  induction cache with
  | nil => simp [List.lookup] at h
  | cons p rest ih =>
    obtain ⟨k, v⟩ := p
    have hmap : cacheMutate ((k, v) :: rest) nm m'
        = (if k = nm then (k, m') else (k, v)) :: cacheMutate rest nm m' := rfl
    by_cases hp : k = nm
    · subst hp
      rw [hmap, if_pos rfl]
      simp [List.lookup]
    · have hb2 : (nm == k) = false := beq_eq_false_iff_ne.mpr (Ne.symm hp)
      simp only [List.lookup, hb2] at h
      rw [hmap, if_neg hp]
      simp only [List.lookup, hb2]
      exact ih h

/-- C10: a get-features call on a cached model writes the sort_order
column, holding the consecutive values 1..n in contract order, into the
live feature definitions frame of that model; because the cache slot
aliases the object, the process-wide cache afterwards holds the model
with the extra column. -/
theorem c10_get_features_mutates_cache (cache : Cache) (store : Store) (nm : String)
    (m : Model) (fdf : List FeatureRow)
    (h1 : List.lookup nm cache = some m)
    (h2 : m.features_df = some fdf) :
    getFeaturesCall cache store nm =
      .ok (cacheMutate cache nm { m with features_df := some (withSortOrder fdf) },
           withSortOrder fdf) ∧
    (withSortOrder fdf).map (fun r => r.sort_order)
      = (List.range fdf.length).map (fun i => some (i + 1)) ∧
    List.lookup nm (cacheMutate cache nm { m with features_df := some (withSortOrder fdf) })
      = some { m with features_df := some (withSortOrder fdf) } := by
  refine ⟨?_, withSortOrder_column fdf, lookup_cacheMutate cache nm m _ h1⟩
  simp only [getFeaturesCall, getModel, h1, getFeaturesModel, attr, h2,
             Bind.bind, Except.bind]

theorem c10_get_features_mutates_cache_witness :
    getFeaturesCall c10Cache emptyStore "m10" =
      .ok (cacheMutate c10Cache "m10" c10Mutated, withSortOrder c10Rows) :=
  (c10_get_features_mutates_cache c10Cache emptyStore "m10" c10Model c10Rows rfl rfl).1
